import Mathlib

/-!
# Verification of the transaction-analyzer aggregation core

Shallow embedding of the period-aggregation and categorization engine of the
transaction analyzer (`src/views.py`, `src/utils.py`, `src/services.py`).

Modelling conventions:
* Python `datetime` values are modelled by the `DateTime` structure below;
  comparison of datetimes is the lexicographic comparison of the fields,
  realised through a monotone numeric encoding (`DateTime.code`) that is
  faithful for field values in their calendar ranges.
* Python `float` amounts are modelled by `ℚ`; `int(...)` is the truncating
  cast `pyInt`, `math.ceil` is `ratCeil`, and `round(x, 2)` is the
  round-half-to-even function `round2`.
* pandas dataframes are modelled by `List Txn`; `groupby` over a column is
  modelled by deduplicating the column values and sorting the keys
  (pandas `groupby` sorts its keys); `sort_values` is modelled by a sort
  on the summed values.
* Python string operations are re-implemented over `String.data`
  (`stripChar` for `str.replace("*","")`, `lastChars` for `s[-4:]`,
  `splitOnChar`/`charsToNat?` for `strptime` field parsing) so that all
  definitions evaluate by kernel reduction.
* Fallible code paths (`raise ValueError` caught by the page builder's
  top-level `except`) are modelled with `Except String`.
-/

/-! ## Datetimes and calendar utilities (`src/utils.py`) -/

/-- A Python `datetime` (second granularity, as used by the analyzer). -/
structure DateTime where
  year : Nat
  month : Nat
  day : Nat
  hour : Nat
  minute : Nat
  second : Nat
deriving DecidableEq, Repr

/-- Monotone numeric encoding of a datetime; for field values inside their
calendar ranges (`month ≤ 12 < 13`, `day ≤ 31 < 32`, `hour < 24`,
`minute, second < 60`) comparing codes is the lexicographic comparison of
the fields, which is how Python compares `datetime` values. -/
def DateTime.code (d : DateTime) : Nat :=
  ((((d.year * 13 + d.month) * 32 + d.day) * 24 + d.hour) * 60 + d.minute) * 60 + d.second

/-- Comparison `a <= b` on datetimes. -/
def dtLe (a b : DateTime) : Bool := a.code ≤ b.code

/-- Leap-year rule used by Python's `calendar`/`datetime`. -/
def isLeap (y : Nat) : Bool := y % 4 = 0 && (y % 100 ≠ 0 || y % 400 = 0)

/-- Number of days of month `m` of year `y`. -/
def daysInMonth (y m : Nat) : Nat :=
  if m = 2 then (if isLeap y then 29 else 28)
  else if m = 4 ∨ m = 6 ∨ m = 9 ∨ m = 11 then 30
  else 31

/-- Function `get_month_start` (utils.py): `date.replace(day=1, hour=0, minute=0, second=0)`. -/
def get_month_start (d : DateTime) : DateTime := ⟨d.year, d.month, 1, 0, 0, 0⟩

/-- Subtraction `datetime - timedelta(seconds=1)`, needed by `get_month_range`. -/
def subOneSecond (d : DateTime) : DateTime :=
  if d.second > 0 then { d with second := d.second - 1 }
  else if d.minute > 0 then { d with minute := d.minute - 1, second := 59 }
  else if d.hour > 0 then { d with hour := d.hour - 1, minute := 59, second := 59 }
  else if d.day > 1 then { d with day := d.day - 1, hour := 23, minute := 59, second := 59 }
  else if d.month > 1 then ⟨d.year, d.month - 1, daysInMonth d.year (d.month - 1), 23, 59, 59⟩
  else ⟨d.year - 1, 12, 31, 23, 59, 59⟩

/-- Function `get_month_range` (utils.py): month start, and the start of the next
month minus one second. -/
def get_month_range (d : DateTime) : DateTime × DateTime :=
  let month_start := get_month_start d
  let next_month_start : DateTime :=
    if d.month = 12 then ⟨d.year + 1, 1, 1, 0, 0, 0⟩ else ⟨d.year, d.month + 1, 1, 0, 0, 0⟩
  (month_start, subOneSecond next_month_start)

/-- Function `get_three_months_back` (utils.py): end of the reference month, and the
first day of the month three calendar months back. -/
def get_three_months_back (d : DateTime) : DateTime × DateTime :=
  let period_end := (get_month_range d).2
  let start : Nat × Nat :=
    if d.month ≤ 3 then (d.year - 1, d.month + 9) else (d.year, d.month - 3)
  (⟨start.1, start.2, 1, 0, 0, 0⟩, period_end)

/-- The calendar day after `d`, at midnight (used to state window
exclusivity at the right end). -/
def nextDayMidnight (d : DateTime) : DateTime :=
  if d.day < daysInMonth d.year d.month then ⟨d.year, d.month, d.day + 1, 0, 0, 0⟩
  else if d.month < 12 then ⟨d.year, d.month + 1, 1, 0, 0, 0⟩
  else ⟨d.year + 1, 1, 1, 0, 0, 0⟩

/-- The calendar day before `d`, keeping the time fields
(`datetime - timedelta(days=1)`). -/
def prevDay (d : DateTime) : DateTime :=
  if d.day > 1 then { d with day := d.day - 1 }
  else if d.month > 1 then { d with month := d.month - 1, day := daysInMonth d.year (d.month - 1) }
  else { d with year := d.year - 1, month := 12, day := 31 }

/-- Subtraction `datetime - timedelta(days=n)`. -/
def subDays (d : DateTime) : Nat → DateTime
  | 0 => d
  | n + 1 => prevDay (subDays d n)

/-! ## Rational stand-ins for Python numeric primitives -/

/-- Python `int(x)`: truncation toward zero. -/
def pyInt (q : ℚ) : ℤ := q.num.tdiv q.den

/-- Mathematical floor of a rational, computably. -/
def ratFloor (q : ℚ) : ℤ := q.num.fdiv q.den

/-- Python `math.ceil`. -/
def ratCeil (q : ℚ) : ℤ := -((-q.num).fdiv q.den)

/-- Python `round(x)` (round half to even), on exact rationals. -/
def roundHalfEven (q : ℚ) : ℤ :=
  let f := ratFloor q
  let r := q - f
  if r < 1/2 then f
  else if 1/2 < r then f + 1
  else if f % 2 = 0 then f else f + 1

/-- Python `round(x, 2)` on exact rationals. -/
def round2 (q : ℚ) : ℚ := (roundHalfEven (q * 100) : ℚ) / 100

/-! ## Character-level string utilities

Lean's built-in `String.replace`/`String.splitOn`/`String.toNat?` do not
reduce in the kernel, so the handful of string operations the analyzer
performs are re-implemented over `String.data`. -/

/-- Python `s.replace(c, "")`: drop every occurrence of the character `c`. -/
def stripChar (c : Char) (s : List Char) : List Char := s.filter (fun x => x ≠ c)

/-- Python `s[-n:]` (the last `n` characters; the whole string when shorter). -/
def lastChars (n : Nat) (s : List Char) : List Char := s.drop (s.length - n)

/-- Split a character list on a separator character (like `str.split(sep)`,
with `"a--b"` giving an empty middle part). -/
def splitOnChar (sep : Char) : List Char → List (List Char)
  | [] => [[]]
  | c :: rest =>
    let r := splitOnChar sep rest
    if c = sep then [] :: r
    else match r with
      | [] => [[c]]
      | p :: ps => (c :: p) :: ps

/-- Decimal digit test. -/
def isDigitChar (c : Char) : Bool := 48 ≤ c.toNat && c.toNat ≤ 57

/-- Parse a non-empty all-digit character list as a `Nat`. -/
def charsToNat? (s : List Char) : Option Nat :=
  if s ≠ [] && s.all isDigitChar then
    some (s.foldl (fun acc c => acc * 10 + (c.toNat - 48)) 0)
  else none

/-- Code-point lexicographic `<=` on strings (Python string comparison). -/
def lexLe : List Nat → List Nat → Bool
  | [], _ => true
  | _ :: _, [] => false
  | a :: as, b :: bs => if a < b then true else if b < a then false else lexLe as bs

/-- Comparison `a <= b` for strings, by code points (Python's string order, which is
what pandas uses to sort `groupby` keys). -/
def strLeB (a b : String) : Bool := lexLe (a.data.map Char.toNat) (b.data.map Char.toNat)

/-- Propositional form of `strLeB`. -/
def strLeP (a b : String) : Prop := strLeB a b = true

instance : DecidableRel strLeP := fun a b => instDecidableEqBool (strLeB a b) true

/-- Strict string order: `<=` together with distinctness. -/
def strLtP (a b : String) : Prop := strLeP a b ∧ a ≠ b

/-! ## Date-string parsing (`datetime.strptime`)

`strptime` with the formats used by the analyzer (`%Y-%m-%d`,
`%Y-%m-%d %H:%M:%S`, `%Y-%m`) accepts 1–4 digits for `%Y` and 1–2 digits
for the other fields, consumes the whole string, and validates the fields
through the `datetime` constructor (month 1–12, day within the month,
hour < 24, minute/second < 60). -/

/-- One numeric `strptime` field: all digits, width between 1 and `w`. -/
def parseField (w : Nat) (s : List Char) : Option Nat :=
  if s.length ≤ w then charsToNat? s else none

/-- Python `datetime.strptime(s, "%Y-%m-%d")`. -/
def parseDate (s : String) : Option DateTime :=
  match splitOnChar '-' s.data with
  | [ys, ms, ds] =>
    match parseField 4 ys, parseField 2 ms, parseField 2 ds with
    | some y, some m, some d =>
      if 1 ≤ y ∧ y ≤ 9999 ∧ 1 ≤ m ∧ m ≤ 12 ∧ 1 ≤ d ∧ d ≤ daysInMonth y m then
        some ⟨y, m, d, 0, 0, 0⟩
      else none
    | _, _, _ => none
  | _ => none

/-- Python `datetime.strptime(s, "%Y-%m-%d %H:%M:%S")`. -/
def parseDateTime (s : String) : Option DateTime :=
  match splitOnChar ' ' s.data with
  | [datePart, timePart] =>
    match parseDate ⟨datePart⟩, splitOnChar ':' timePart with
    | some d, [hs, mins, secs] =>
      match parseField 2 hs, parseField 2 mins, parseField 2 secs with
      | some h, some mi, some sec =>
        if h ≤ 23 ∧ mi ≤ 59 ∧ sec ≤ 59 then
          some ⟨d.year, d.month, d.day, h, mi, sec⟩
        else none
      | _, _, _ => none
    | _, _ => none
  | _ => none

/-- Python `datetime.strptime(s, "%Y-%m")`. -/
def parseMonth (s : String) : Option (Nat × Nat) :=
  match splitOnChar '-' s.data with
  | [ys, ms] =>
    match parseField 4 ys, parseField 2 ms with
    | some y, some m =>
      if 1 ≤ y ∧ y ≤ 9999 ∧ 1 ≤ m ∧ m ≤ 12 then some (y, m) else none
    | _, _ => none
  | _ => none

/-! ## The transaction dataset (`views.py`) -/

/-- One row of the dataset: operation date, card number, status, category,
description and signed payment amount («Сумма платежа»). -/
structure Txn where
  opDate : DateTime
  cardId : String
  status : String
  category : String
  description : String
  amount : ℚ
deriving DecidableEq, Repr

/-- Module constants of `views.py`. -/
def CATEGORY_OTHER : String := "Остальное"

/-- «Переводы» (transfers). -/
def CATEGORY_TRANSFERS : String := "Переводы"

/-- «Наличные» (cash). -/
def CATEGORY_CASH : String := "Наличные"

/-- Constant `TOP_CATEGORIES_COUNT` in `views.py`. -/
def TOP_CATEGORIES_COUNT : Nat := 7

/-- Constant `CASHBACK_RATE` in `views.py`. -/
def CASHBACK_RATE : ℚ := 1/100

/-- The row filter shared by both page builders: operation date inside the
inclusive window and status `"OK"`. -/
def keepRow (ws we : DateTime) (t : Txn) : Bool :=
  dtLe ws t.opDate && dtLe t.opDate we && (t.status == "OK")

/-- Function `matches_card` (events_page): strip `*` from the card number, keep the
last four characters when at least four remain, compare with the filter. -/
def matchesCard (cf : String) (t : Txn) : Bool :=
  let clean := stripChar '*' t.cardId.data
  let lastDigits := if 4 ≤ clean.length then lastChars 4 clean else clean
  (⟨lastDigits⟩ : String) == cf

/-- Date/status filtering followed by the optional card filter (a `None`
or empty filter string is falsy in Python and disables the filter). -/
def filterTxns (ws we : DateTime) (cf : Option String) (txns : List Txn) : List Txn :=
  let base := txns.filter (keepRow ws we)
  match cf with
  | some f => if f ≠ "" then base.filter (matchesCard f) else base
  | none => base

/-! ## Category aggregation (`events_page`, views.py lines 411–470) -/

/-- Signed per-category total: `groupby("Категория")["Сумма платежа"].sum()`. -/
def catSumSigned (rows : List Txn) (c : String) : ℚ :=
  ((rows.filter (fun t => t.category == c)).map (·.amount)).sum

/-- Per-category total with `.abs()` applied, as in the expenses branch. -/
def catSum (rows : List Txn) (c : String) : ℚ := |catSumSigned rows c|

/-- The distinct values of a column, sorted by code points — the key order
a pandas `groupby` produces. -/
def groupKeys (vals : List String) : List String :=
  List.insertionSort strLeP vals.dedup

/-- Order used by `sort_values(ascending=False)` on the summed amounts. -/
def valGe (a b : String × ℚ) : Prop := b.2 ≤ a.2

instance : DecidableRel valGe := fun a b => inferInstanceAs (Decidable (b.2 ≤ a.2))

/-- Series `expenses_by_category`: per-category absolute totals of the expense
rows, sorted descending by total. -/
def byCategory (rows : List Txn) : List (String × ℚ) :=
  List.insertionSort valGe
    ((groupKeys (rows.map (·.category))).map (fun c => (c, catSum rows c)))

/-- One `{category, amount}` entry of the result. -/
structure CatAmount where
  category : String
  amount : ℤ
deriving DecidableEq, Repr

/-- The excluded categories («Переводы» and «Наличные»). -/
def excludedCat (c : String) : Bool := c == CATEGORY_TRANSFERS || c == CATEGORY_CASH

/-- The main-categories loop of `events_page`: excluded categories are
skipped, the first `TOP_CATEGORIES_COUNT` non-excluded categories are
emitted verbatim and the remaining non-excluded totals are accumulated
into `other`. -/
def mainLoop : List (String × ℚ) → Nat → List CatAmount → ℚ → List CatAmount × ℚ
  | [], _, main, other => (main, other)
  | (c, a) :: rest, cnt, main, other =>
    if excludedCat c then mainLoop rest cnt main other
    else if cnt < TOP_CATEGORIES_COUNT then
      mainLoop rest (cnt + 1) (main ++ [⟨c, pyInt a⟩]) other
    else mainLoop rest cnt main (other + a)

/-- The `expenses` part of the `events_page` result. -/
structure ExpensesResult where
  total_amount : ℤ
  main : List CatAmount
  transfers_and_cash : List CatAmount
deriving DecidableEq, Repr

/-- The `income` part of the `events_page` result. -/
structure IncomeResult where
  total_amount : ℤ
  main : List CatAmount
deriving DecidableEq, Repr

/-- The full `events_page` JSON shape (quotes are opaque pass-through
strings supplied by the external quote provider). -/
structure EventsResult where
  expenses : ExpensesResult
  income : IncomeResult
  currency_rates : List String
  stock_prices : List String
deriving DecidableEq, Repr

/-- Frame `expenses_df`: the rows with a strictly negative payment amount. -/
def expenseRows (rows : List Txn) : List Txn := rows.filter (fun t => decide (t.amount < 0))

/-- The result of the main-categories loop: the emitted top-7 entries and
the accumulated «Остальное» amount. -/
def mainAndOther (expRows : List Txn) : List CatAmount × ℚ := mainLoop (byCategory expRows) 0 [] 0

/-- Expenses aggregation of `events_page` over the already-filtered rows:
grand total, top-7-plus-«Остальное» main categories, and the separate
transfers/cash list. -/
def buildExpenses (rows : List Txn) : ExpensesResult :=
  let expRows := expenseRows rows
  let total := pyInt |(expRows.map (·.amount)).sum|
  let looped := mainAndOther expRows
  let main :=
    if 0 < looped.2 then looped.1 ++ [⟨CATEGORY_OTHER, pyInt looped.2⟩] else looped.1
  let tac :=
    ([CATEGORY_TRANSFERS, CATEGORY_CASH].filter
        (fun c => decide (c ∈ groupKeys (expRows.map (·.category))))).map
      (fun c => ⟨c, pyInt |catSum expRows c|⟩)
  ⟨total, main, tac⟩

/-- Income aggregation of `events_page` over the already-filtered rows:
signed per-category totals sorted descending, no top-N cap. -/
def buildIncome (rows : List Txn) : IncomeResult :=
  let incRows := rows.filter (fun t => decide (0 < t.amount))
  let total := pyInt (incRows.map (·.amount)).sum
  let byCat :=
    List.insertionSort valGe
      ((groupKeys (incRows.map (·.category))).map (fun c => (c, catSumSigned incRows c)))
  ⟨total, byCat.map (fun p => ⟨p.1, pyInt p.2⟩)⟩

/-- The aggregation phase of `events_page` for a resolved window. -/
def buildEventsResult (ws we : DateTime) (txns : List Txn) (cf : Option String)
    (rates stocks : List String) : EventsResult :=
  let rows := filterTxns ws we cf txns
  ⟨buildExpenses rows, buildIncome rows, rates, stocks⟩

/-! ## The period resolver and the `events_page` entry point -/

/-- Set the time fields to `23:59:59` (`replace(hour=23, minute=59, second=59)`). -/
def endOfDay (d : DateTime) : DateTime := { d with hour := 23, minute := 59, second := 59 }

/-- The window for a standard (non-CUSTOM) period selector, given the
parsed reference date. -/
def stdWindow (cur : DateTime) (period : String) : Except String (DateTime × DateTime) :=
  let we := endOfDay cur
  if period = "W" then .ok (subDays cur 6, we)
  else if period = "M" then .ok (get_month_start cur, we)
  else if period = "Y" then .ok (⟨cur.year, 1, 1, 0, 0, 0⟩, we)
  else if period = "ALL" then .ok (⟨2000, 1, 1, 0, 0, 0⟩, we)
  else .error "Некорректный период"

/-- The period resolver of `events_page`: the CUSTOM branch reads only
`start_date`/`end_date` (a missing or empty bound is a `ValueError`), the
other branches parse `date` and dispatch on the selector. -/
def resolveWindow (date period : String) (start_date end_date : Option String) :
    Except String (DateTime × DateTime) :=
  if period = "CUSTOM" then
    match start_date, end_date with
    | some sd, some ed =>
      if sd = "" ∨ ed = "" then .error "Для периода CUSTOM необходимо указать start_date и end_date"
      else
        match parseDate sd, parseDate ed with
        | some s, some e => .ok (s, endOfDay e)
        | _, _ => .error "Некорректный формат даты"
    | _, _ => .error "Для периода CUSTOM необходимо указать start_date и end_date"
  else
    match parseDate date with
    | none => .error "Некорректный формат даты"
    | some cur => stdWindow cur period

/-- The all-zero/empty degraded result shape. -/
def emptyEventsResult : EventsResult := ⟨⟨0, [], []⟩, ⟨0, []⟩, [], []⟩

/-- The `events_page` body before the top-level `except`: resolve the window,
short-circuit an empty dataset, otherwise aggregate. -/
def events_page_core (date period : String) (txns : List Txn)
    (start_date end_date cf : Option String) (rates stocks : List String) :
    Except String EventsResult := do
  let w ← resolveWindow date period start_date end_date
  if txns = [] then
    pure emptyEventsResult
  else
    pure (buildEventsResult w.1 w.2 txns cf rates stocks)

/-- Function `events_page`: any error raised inside is downgraded to the all-empty
shape by the top-level `except`. -/
def events_page (date period : String) (txns : List Txn)
    (start_date end_date cf : Option String) (rates stocks : List String) : EventsResult :=
  match events_page_core date period txns start_date end_date cf rates stocks with
  | .ok r => r
  | .error _ => emptyEventsResult

/-! ## The home page (`home_page`, views.py) -/

/-- One card summary entry of the home page. -/
structure CardEntry where
  last_digits : String
  total_spent : ℚ
  cashback : ℚ
deriving DecidableEq, Repr

/-- One top-transaction entry of the home page. -/
structure TxnEntry where
  date : String
  amount : ℚ
  category : String
  description : String
deriving DecidableEq, Repr

/-- The full `home_page` JSON shape. -/
structure HomeResult where
  greeting : String
  cards : List CardEntry
  top_transactions : List TxnEntry
  currency_rates : List String
  stock_prices : List String
deriving DecidableEq, Repr

/-- Greeting selection `_get_greeting`. -/
def getGreeting (hour : Nat) : String :=
  if 5 ≤ hour ∧ hour < 12 then "Доброе утро"
  else if 12 ≤ hour ∧ hour < 17 then "Добрый день"
  else if 17 ≤ hour ∧ hour < 22 then "Добрый вечер"
  else "Доброй ночи"

/-- Last four characters of the card number after stripping `*`
(`home_page` applies `[-4:]` unconditionally). -/
def lastDigits (card : String) : String := ⟨lastChars 4 (stripChar '*' card.data)⟩

/-- The card summary built for one `groupby("Номер карты")` group: the
group's expense rows are summed, `total_spent = |sum|`, flat 1% cashback,
both rounded to two decimals. -/
def cardEntry (rows : List Txn) (card : String) : CardEntry :=
  let grp := rows.filter (fun t => t.cardId == card)
  let exp := grp.filter (fun t => decide (t.amount < 0))
  let total_spent := |(exp.map (·.amount)).sum|
  ⟨lastDigits card, round2 total_spent, round2 (total_spent * CASHBACK_RATE)⟩

/-- Stable insertion used to model Python's stable `list.sort(key=...,
reverse=True)`: a new element goes after every element with a greater or
equal key. -/
def insertBySpent (x : CardEntry) : List CardEntry → List CardEntry
  | [] => [x]
  | y :: ys => if y.total_spent < x.total_spent then x :: y :: ys else y :: insertBySpent x ys

/-- Python's stable descending sort by `total_spent`, as a left fold of
stable insertions. -/
def sortBySpent (l : List CardEntry) : List CardEntry :=
  l.foldl (fun acc x => insertBySpent x acc) []

/-- The per-card section of `home_page`: group the filtered rows by card
number (pandas sorts the group keys), build each summary, sort descending
by `total_spent`. -/
def cardsData (rows : List Txn) : List CardEntry :=
  sortBySpent ((groupKeys (rows.map (·.cardId))).map (cardEntry rows))

/-- Two-digit zero-padded decimal rendering. -/
def pad2 (n : Nat) : String := if n < 10 then "0" ++ toString n else toString n

/-- Function `format_date` (utils.py): `DD.MM.YYYY`. -/
def format_date (d : DateTime) : String :=
  pad2 d.day ++ "." ++ pad2 d.month ++ "." ++ toString d.year

/-- Descending order by absolute payment amount, used for the top-5
transactions. -/
def absAmountGe (a b : Txn) : Prop := |b.amount| ≤ |a.amount|

instance : DecidableRel absAmountGe := fun a b => inferInstanceAs (Decidable (|b.amount| ≤ |a.amount|))

/-- The top-transactions section of `home_page`: all filtered rows sorted
descending by `|amount|`, first five, formatted. -/
def topTransactions (rows : List Txn) : List TxnEntry :=
  ((List.insertionSort absAmountGe rows).take 5).map
    (fun t => ⟨format_date t.opDate, round2 t.amount, t.category, t.description⟩)

/-- Function `home_page`: parse the datetime, window from the month start to the end
of the reference day, short-circuit an empty dataset, otherwise build the
cards and top-transactions sections. A parse failure is caught by the
top-level `except`, which re-parses for the greeting and falls back to
`DEFAULT_GREETING`. -/
def home_page (date_time : String) (txns : List Txn) (rates stocks : List String) : HomeResult :=
  match parseDateTime date_time with
  | none => ⟨"Добрый день", [], [], [], []⟩
  | some cur =>
    if txns = [] then ⟨getGreeting cur.hour, [], [], [], []⟩
    else
      let rows := txns.filter (keepRow (get_month_start cur) (endOfDay cur))
      ⟨getGreeting cur.hour, cardsData rows, topTransactions rows, rates, stocks⟩

/-! ## `investment_bank` (`src/services.py`) -/

/-- A transaction record as passed to the service functions: a dict whose
`"Дата операции"`/`"Сумма платежа"` keys may be absent (`dict.get`). The
date is modelled directly as a datetime (the string/Timestamp conversion
branches normalize to one). -/
structure SvcTxn where
  opDate : Option DateTime
  amount : Option ℚ
deriving DecidableEq, Repr

/-- Lookup `transaction.get("Сумма платежа", 0.0)` followed by
`float(amount) if amount else 0.0`. -/
def svcAmount (t : SvcTxn) : ℚ :=
  match t.amount with
  | none => 0
  | some a => if a = 0 then 0 else a

/-- The month filter of `investment_bank`: the record must carry a (truthy)
operation date in the target month, and a negative amount. -/
def svcKeep (ty tm : Nat) (t : SvcTxn) : Bool :=
  match t.opDate with
  | none => false
  | some d => d.year == ty && d.month == tm && decide (svcAmount t < 0)

/-- Function `investment_bank` (services.py): round each expense of the target month
up to the nearest multiple of `limit` and sum the differences; `0.0` for an
empty list, a non-positive limit, an unparsable month or no matching
expenses. -/
def investment_bank (month : String) (transactions : List SvcTxn) (limit : ℤ) : ℚ :=
  if transactions = [] then 0
  else if limit ≤ 0 then 0
  else
    match parseMonth month with
    | none => 0
    | some (ty, tm) =>
      let filtered := transactions.filter (svcKeep ty tm)
      if filtered = [] then 0
      else
        let total :=
          (filtered.map (fun t =>
            let av := |svcAmount t|
            (((ratCeil (av / (limit : ℚ))) * limit : ℤ) : ℚ) - av)).sum
        round2 total

/-! ## Card-id-annotated sorting

`home_page` sorts the card summaries with Python's stable `list.sort`.
The entries themselves no longer carry the card id, so to *state* the
stability property («ties keep the natural ordering of the card ids») we
run the same stable insertion on entries annotated with their group key. -/

/-- Insertion `insertBySpent` on id-annotated entries (same comparison). -/
def insertPairBySpent (x : String × CardEntry) :
    List (String × CardEntry) → List (String × CardEntry)
  | [] => [x]
  | y :: ys =>
    if y.2.total_spent < x.2.total_spent then x :: y :: ys else y :: insertPairBySpent x ys

/-- Sort `sortBySpent` on id-annotated entries. -/
def sortPairsBySpent (l : List (String × CardEntry)) : List (String × CardEntry) :=
  l.foldl (fun acc x => insertPairBySpent x acc) []

/-- The order the sorted card list realises: strictly descending by
`total_spent`, and inside a tie the card ids keep their ascending (group
key) order. -/
def cardOrder (a b : String × CardEntry) : Prop :=
  b.2.total_spent ≤ a.2.total_spent ∧
    (a.2.total_spent = b.2.total_spent → strLtP a.1 b.1)

/-! # Theorems -/

/-! ## Calendar facts -/

theorem daysInMonth_pos (y m : Nat) : 1 ≤ daysInMonth y m := by
  unfold daysInMonth
  split_ifs <;> omega

theorem daysInMonth_le (y m : Nat) : daysInMonth y m ≤ 31 := by
  unfold daysInMonth
  split_ifs <;> omega

/-- **C6** For every date, `get_three_months_back` returns the window whose
end is the last second of the date's month (through `get_month_range`) and
whose start is the first day at `00:00:00` of the month three calendar
months back, wrapping to `(year - 1, month + 9)` when `month ≤ 3`; in
particular the start for 2024-03-15 is 2023-12-01 and for 2024-01-15 is
2023-10-01. -/
theorem three_months_back_window (d : DateTime) (hm1 : 1 ≤ d.month) (hm2 : d.month ≤ 12) :
    (get_three_months_back d).2 = ⟨d.year, d.month, daysInMonth d.year d.month, 23, 59, 59⟩ ∧
    (get_three_months_back d).1 =
      (if d.month ≤ 3 then (⟨d.year - 1, d.month + 9, 1, 0, 0, 0⟩ : DateTime)
       else ⟨d.year, d.month - 3, 1, 0, 0, 0⟩) ∧
    (get_three_months_back ⟨2024, 3, 15, 0, 0, 0⟩).1 = ⟨2023, 12, 1, 0, 0, 0⟩ ∧
    (get_three_months_back ⟨2024, 1, 15, 0, 0, 0⟩).1 = ⟨2023, 10, 1, 0, 0, 0⟩ := by
  refine ⟨?_, ?_, by decide, by decide⟩
  · by_cases hm : d.month = 12
    · simp [get_three_months_back, get_month_range, subOneSecond, hm, daysInMonth]
    · have hgt : ¬ (d.month + 1 ≤ 1) := by omega
      simp [get_three_months_back, get_month_range, subOneSecond, hm, hgt]
      intro h0
      exact absurd h0 (by omega)
  · by_cases h3 : d.month ≤ 3 <;> simp [get_three_months_back, h3]

/-- Witness for `three_months_back_window` at 2024-02-10. -/
theorem three_months_back_window_witness :
    (get_three_months_back ⟨2024, 2, 10, 0, 0, 0⟩).2 =
      ⟨2024, 2, daysInMonth 2024 2, 23, 59, 59⟩ ∧
    (get_three_months_back ⟨2024, 2, 10, 0, 0, 0⟩).1 =
      (if (2:Nat) ≤ 3 then (⟨2023, 11, 1, 0, 0, 0⟩ : DateTime) else ⟨2024, 11, 1, 0, 0, 0⟩) := by
  have h := three_months_back_window ⟨2024, 2, 10, 0, 0, 0⟩ (by decide) (by decide)
  exact ⟨h.1, h.2.1⟩

/-- **C5** For every valid calendar date, the MONTH window that
`events_page` resolves for that date (month start to `23:59:59` of the
day) includes a status-OK transaction stamped `23:59:59` on the day and
excludes one stamped `00:00:00` on the following day. -/
theorem month_window_boundary (y m day : Nat) (t1 t2 : Txn)
    (hm1 : 1 ≤ m) (hm2 : m ≤ 12) (hd1 : 1 ≤ day) (hd2 : day ≤ daysInMonth y m)
    (hs : t1.status = "OK")
    (h1 : t1.opDate = ⟨y, m, day, 23, 59, 59⟩)
    (h2 : t2.opDate = nextDayMidnight ⟨y, m, day, 0, 0, 0⟩) :
    stdWindow ⟨y, m, day, 0, 0, 0⟩ "M" = .ok (⟨y, m, 1, 0, 0, 0⟩, ⟨y, m, day, 23, 59, 59⟩) ∧
    keepRow ⟨y, m, 1, 0, 0, 0⟩ ⟨y, m, day, 23, 59, 59⟩ t1 = true ∧
    keepRow ⟨y, m, 1, 0, 0, 0⟩ ⟨y, m, day, 23, 59, 59⟩ t2 = false := by
  have hdim := daysInMonth_le y m
  refine ⟨by with_unfolding_all rfl, ?_, ?_⟩
  · simp only [keepRow, dtLe, DateTime.code, h1, hs, Bool.and_eq_true, decide_eq_true_eq,
      beq_self_eq_true, and_true]
    constructor <;> omega
  · have hx : dtLe t2.opDate ⟨y, m, day, 23, 59, 59⟩ = false := by
      rw [h2]
      unfold nextDayMidnight dtLe DateTime.code
      split_ifs <;> (simp only [decide_eq_false_iff_not, not_le]; omega)
    simp [keepRow, hx]

/-- Witness for `month_window_boundary` on 2024-03-15. -/
theorem month_window_boundary_witness :
    keepRow ⟨2024, 3, 1, 0, 0, 0⟩ ⟨2024, 3, 15, 23, 59, 59⟩
      ⟨⟨2024, 3, 15, 23, 59, 59⟩, "*1", "OK", "Еда", "", -1⟩ = true ∧
    keepRow ⟨2024, 3, 1, 0, 0, 0⟩ ⟨2024, 3, 15, 23, 59, 59⟩
      ⟨⟨2024, 3, 16, 0, 0, 0⟩, "*1", "OK", "Еда", "", -1⟩ = false := by
  have h := month_window_boundary 2024 3 15
    ⟨⟨2024, 3, 15, 23, 59, 59⟩, "*1", "OK", "Еда", "", -1⟩
    ⟨⟨2024, 3, 16, 0, 0, 0⟩, "*1", "OK", "Еда", "", -1⟩
    (by decide) (by decide) (by decide) (by decide) rfl rfl (by decide)
  exact ⟨h.2.1, h.2.2⟩

/-! ## Error handling and the CUSTOM branch -/

theorem resolveWindow_invalid_period (period : String)
    (hW : period ≠ "W") (hM : period ≠ "M") (hY : period ≠ "Y")
    (hA : period ≠ "ALL") (hC : period ≠ "CUSTOM") (date : String)
    (sd ed : Option String) :
    ∃ msg, resolveWindow date period sd ed = .error msg := by
  unfold resolveWindow stdWindow
  simp only [hC, if_false]
  cases parseDate date
  · exact ⟨_, rfl⟩
  · simp [hW, hM, hY, hA]

/-- **C7** For every period selector that is none of `W`, `M`, `Y`, `ALL`,
`CUSTOM` and every dataset, `events_page` never escapes with an error: the
`ValueError` raised inside the resolver is caught at the page builder's
top level and the call returns the degraded all-zero/empty shape. -/
theorem events_page_invalid_period (period : String)
    (hW : period ≠ "W") (hM : period ≠ "M") (hY : period ≠ "Y")
    (hA : period ≠ "ALL") (hC : period ≠ "CUSTOM")
    (date : String) (txns : List Txn) (sd ed cf : Option String)
    (rates stocks : List String) :
    events_page date period txns sd ed cf rates stocks = emptyEventsResult := by
  obtain ⟨msg, hmsg⟩ := resolveWindow_invalid_period period hW hM hY hA hC date sd ed
  unfold events_page events_page_core
  rw [hmsg]
  rfl

/-- Witness for `events_page_invalid_period` at the selector `"X"`. -/
theorem events_page_invalid_period_witness :
    events_page "2024-03-15" "X" [⟨⟨2024, 3, 10, 0, 0, 0⟩, "*1", "OK", "Еда", "", -1⟩]
      none none none ["USD"] ["AAPL"] = emptyEventsResult :=
  events_page_invalid_period "X" (by decide) (by decide) (by decide) (by decide) (by decide)
    "2024-03-15" [⟨⟨2024, 3, 10, 0, 0, 0⟩, "*1", "OK", "Еда", "", -1⟩] none none none
    ["USD"] ["AAPL"]

/-- **C8** For every valid date string and every period selector, calling
`events_page` on an empty dataset returns, without error, exactly the
all-empty/zero structure. -/
theorem events_page_empty_dataset (date period : String) (d : DateTime)
    (hp : parseDate date = some d) (sd ed cf : Option String) (rates stocks : List String) :
    events_page date period [] sd ed cf rates stocks = emptyEventsResult := by
  unfold events_page events_page_core
  rcases hrw : resolveWindow date period sd ed with msg | w
  · rfl
  · rfl

/-- Witness for `events_page_empty_dataset` at `("2024-03-15", "M")`. -/
theorem events_page_empty_dataset_witness :
    events_page "2024-03-15" "M" [] none none none ["USD"] [] = emptyEventsResult :=
  events_page_empty_dataset "2024-03-15" "M" ⟨2024, 3, 15, 0, 0, 0⟩
    (by with_unfolding_all rfl) none none none ["USD"] []

/-- **C10** With period `CUSTOM` and both bounds supplied, the result of
`events_page` does not depend on the `date` argument at all (the CUSTOM
branch never reads it), for any two date strings, parsable or not. -/
theorem events_page_custom_ignores_date (date1 date2 : String) (txns : List Txn)
    (s e : String) (cf : Option String) (rates stocks : List String) :
    events_page date1 "CUSTOM" txns (some s) (some e) cf rates stocks =
      events_page date2 "CUSTOM" txns (some s) (some e) cf rates stocks := rfl

/-- **C9 counterexample** The record `{"Сумма платежа": -1712}` carries no
operation date, so `investment_bank` filters it out and returns `0.0`, not
the `38.0` the claim asserts. -/
theorem investment_bank_no_date_counterexample :
    investment_bank "2024-03" [⟨none, some (-1712)⟩] 50 = 0 ∧ (0 : ℚ) ≠ 38 :=
  ⟨by with_unfolding_all rfl, by norm_num⟩

/-- **C9 (amended)** With the expense records dated inside the target
month, the rounding law holds: `-1712` rounded up to a multiple of 50 gives
a difference of `38.0`, and `-850` (already a multiple) gives `0.0`. -/
theorem investment_bank_rounding_law :
    investment_bank "2024-03" [⟨some ⟨2024, 3, 15, 14, 30, 0⟩, some (-1712)⟩] 50 = 38 ∧
    investment_bank "2024-03" [⟨some ⟨2024, 3, 20, 10, 0, 0⟩, some (-850)⟩] 50 = 0 :=
  ⟨by with_unfolding_all rfl, by with_unfolding_all rfl⟩

/-! ## Grouping-sum facts -/

theorem catSumSigned_cons (t : Txn) (ts : List Txn) (c : String) :
    catSumSigned (t :: ts) c =
      (if t.category == c then t.amount else 0) + catSumSigned ts c := by
  unfold catSumSigned
  by_cases h : t.category == c <;> simp [List.filter_cons, h]

theorem sum_indicator (keys : List String) (hnd : keys.Nodup) (c : String) (hc : c ∈ keys)
    (a : ℚ) : (keys.map (fun k => if c = k then a else 0)).sum = a := by
  induction keys with
  | nil => cases hc
  | cons k ks ih =>
    by_cases hck : c = k
    · subst hck
      have hnotin : c ∉ ks := (List.nodup_cons.mp hnd).1
      have hzero : ((ks.map (fun k => if c = k then a else 0)).sum : ℚ) = 0 :=
        List.sum_eq_zero (by
          intro x hx
          obtain ⟨k', hk', hval⟩ := List.mem_map.mp hx
          have hne : ¬ c = k' := fun h => hnotin (h ▸ hk')
          simpa [hne] using hval.symm)
      simp [hzero]
    · have hcks : c ∈ ks := by
        rcases List.mem_cons.mp hc with h | h
        · exact absurd h hck
        · exact h
      simp [hck, ih (List.nodup_cons.mp hnd).2 hcks]

theorem group_sum (rows : List Txn) (keys : List String) (hnd : keys.Nodup)
    (hmem : ∀ t ∈ rows, t.category ∈ keys) :
    (keys.map (fun c => catSumSigned rows c)).sum = (rows.map (·.amount)).sum := by
  induction rows with
  | nil =>
    simp only [List.map_nil, List.sum_nil]
    exact List.sum_eq_zero (by
      intro x hx
      obtain ⟨c, _, hval⟩ := List.mem_map.mp hx
      simpa [catSumSigned] using hval.symm)
  | cons t ts ih =>
    have h1 : (keys.map (fun c => catSumSigned (t :: ts) c)).sum =
        (keys.map (fun c => if t.category = c then t.amount else 0)).sum +
          (keys.map (fun c => catSumSigned ts c)).sum := by
      simp only [catSumSigned_cons, beq_iff_eq]
      exact List.sum_map_add
    rw [h1, sum_indicator keys hnd t.category (hmem t (List.mem_cons_self t ts)) t.amount,
      ih (fun x hx => hmem x (List.mem_cons_of_mem t hx))]
    simp

theorem sum_nonpos_list (l : List ℚ) (h : ∀ x ∈ l, x ≤ 0) : l.sum ≤ 0 := by
  induction l with
  | nil => simp
  | cons x xs ih =>
    simp only [List.sum_cons]
    have := h x (List.mem_cons_self x xs)
    have := ih (fun y hy => h y (List.mem_cons_of_mem x hy))
    linarith

theorem sum_map_neg_q (l : List String) (f : String → ℚ) :
    (l.map (fun c => -(f c))).sum = -((l.map f).sum) := by
  induction l with
  | nil => simp
  | cons x xs ih => simp [ih]; ring

theorem catSumSigned_nonpos (E : List Txn) (hneg : ∀ t ∈ E, t.amount < 0) (c : String) :
    catSumSigned E c ≤ 0 := by
  refine sum_nonpos_list _ ?_
  intro x hx
  obtain ⟨t, ht, hval⟩ := List.mem_map.mp hx
  have ht' : t ∈ E := List.mem_of_mem_filter ht
  exact hval ▸ le_of_lt (hneg t ht')

/-- On a list of expense rows (all amounts negative), the absolute value of
the total equals the sum of the per-category absolute totals over the
distinct categories — the decomposition that makes the grand total
independent of how categories are bucketed. -/
theorem abs_sum_eq_sum_catSum (E : List Txn) (hneg : ∀ t ∈ E, t.amount < 0) :
    |(E.map (·.amount)).sum| =
      (((E.map (·.category)).dedup).map (fun c => catSum E c)).sum := by
  have hnd := List.nodup_dedup (E.map (·.category))
  have hmem : ∀ t ∈ E, t.category ∈ (E.map (·.category)).dedup := fun t ht =>
    List.mem_dedup.mpr (List.mem_map.mpr ⟨t, ht, rfl⟩)
  have hgroup := group_sum E _ hnd hmem
  have habs : |(E.map (·.amount)).sum| = -((E.map (·.amount)).sum) :=
    abs_of_nonpos (sum_nonpos_list _ (by
      intro x hx
      obtain ⟨t, ht, hval⟩ := List.mem_map.mp hx
      exact hval ▸ le_of_lt (hneg t ht)))
  rw [habs, ← hgroup, ← sum_map_neg_q]
  refine congrArg List.sum (List.map_congr_left ?_)
  intro c _
  exact (abs_of_nonpos (catSumSigned_nonpos E hneg c)).symm

/-- **C3** For every dataset and resolved window (and optional card
filter), `events_page` sets `expenses.total_amount` to the truncating cast
of the absolute total over *all* filtered expense rows: it equals
`pyInt` of the sum of the per-category absolute totals over every distinct
category — «Переводы» and «Наличные» included — so the category exclusion
never affects the grand total; and `pyInt` truncates (`12.9 → 12`,
`-12.9 → -12`), it does not round. -/
theorem events_total_amount_truncated_grand_total (ws we : DateTime) (txns : List Txn)
    (cf : Option String) (rates stocks : List String) :
    ((buildEventsResult ws we txns cf rates stocks).expenses.total_amount =
      pyInt ((((expenseRows (filterTxns ws we cf txns)).map (·.category)).dedup.map
        (fun c => catSum (expenseRows (filterTxns ws we cf txns)) c)).sum)) ∧
    pyInt (129/10) = 12 ∧ pyInt (-(129/10)) = -12 := by
  refine ⟨?_, by with_unfolding_all rfl, by with_unfolding_all rfl⟩
  have hneg : ∀ t ∈ expenseRows (filterTxns ws we cf txns), t.amount < 0 := by
    intro t ht
    have := List.of_mem_filter ht
    simpa using this
  show pyInt |((expenseRows (filterTxns ws we cf txns)).map (·.amount)).sum| = _
  rw [abs_sum_eq_sum_catSum _ hneg]

/-! ## The main-categories loop -/

/-- Structure of a `mainLoop` run: the non-excluded part of the input
splits (in order) into a prefix `keep` that is emitted into `main` and a
suffix `rest` whose amounts are accumulated into `other`; once the counter
has reached the top-N cap nothing more is emitted. -/
theorem mainLoop_spec (l : List (String × ℚ)) (cnt : Nat) (main : List CatAmount) (other : ℚ) :
    ∃ keep rest : List (String × ℚ),
      l.filter (fun p => !excludedCat p.1) = keep ++ rest ∧
      (mainLoop l cnt main other).1 = main ++ keep.map (fun p => ⟨p.1, pyInt p.2⟩) ∧
      (mainLoop l cnt main other).2 = other + (rest.map (·.2)).sum ∧
      (TOP_CATEGORIES_COUNT ≤ cnt → keep = []) := by
  induction l generalizing cnt main other with
  | nil =>
    exact ⟨[], [], by simp, by simp [mainLoop], by simp [mainLoop], fun _ => rfl⟩
  | cons p ps ih =>
    obtain ⟨c, a⟩ := p
    by_cases hex : excludedCat c = true
    · obtain ⟨k, r, h1, h2, h3, h4⟩ := ih cnt main other
      refine ⟨k, r, ?_, ?_, ?_, h4⟩
      · simpa [List.filter_cons, hex] using h1
      · simpa [mainLoop, hex] using h2
      · simpa [mainLoop, hex] using h3
    · by_cases hcnt : cnt < TOP_CATEGORIES_COUNT
      · obtain ⟨k, r, h1, h2, h3, h4⟩ := ih (cnt + 1) (main ++ [⟨c, pyInt a⟩]) other
        refine ⟨(c, a) :: k, r, ?_, ?_, ?_, ?_⟩
        · simpa [List.filter_cons, hex] using h1
        · simpa [mainLoop, hex, hcnt] using h2
        · simpa [mainLoop, hex, hcnt] using h3
        · intro h7
          exact absurd hcnt (by omega)
      · obtain ⟨k, r, h1, h2, h3, h4⟩ := ih cnt main (other + a)
        have hk : k = [] := h4 (by omega)
        subst hk
        refine ⟨[], (c, a) :: r, ?_, ?_, ?_, fun _ => rfl⟩
        · simpa [List.filter_cons, hex] using h1
        · simpa [mainLoop, hex, hcnt] using h2
        · have h3' : (mainLoop ps cnt main (other + a)).2 = other + a + (r.map (·.2)).sum := h3
          simp only [mainLoop, hex, Bool.false_eq_true, if_false, hcnt, List.map_cons,
            List.sum_cons]
          rw [h3']
          ring

/-! ## Category bucketing (C1) -/

theorem groupKeys_mem (vals : List String) (c : String) :
    c ∈ groupKeys vals ↔ c ∈ vals := by
  unfold groupKeys
  rw [(List.perm_insertionSort strLeP _).mem_iff, List.mem_dedup]

theorem byCategory_perm (rows : List Txn) :
    (byCategory rows).Perm
      (((rows.map (·.category)).dedup).map (fun c => (c, catSum rows c))) := by
  unfold byCategory groupKeys
  exact (List.perm_insertionSort valGe _).trans
    ((List.perm_insertionSort strLeP _).map _)

/-- **C1** For every dataset and resolved window (and optional card
filter), in the `events_page` result «Переводы» and «Наличные» never occur
in `expenses.main` — neither as a top-7 entry nor inside the «Остальное»
rollup, whose amount sums only non-excluded categories — and
`transfers_and_cash` lists exactly the excluded categories that occur
among the filtered expense rows, in the fixed order
[«Переводы», «Наличные»], each with amount `pyInt |sum of its expense
amounts|`. -/
theorem events_transfers_cash_separated (ws we : DateTime) (txns : List Txn)
    (cf : Option String) (rates stocks : List String) :
    (∀ e ∈ (buildEventsResult ws we txns cf rates stocks).expenses.main,
        e.category ≠ CATEGORY_TRANSFERS ∧ e.category ≠ CATEGORY_CASH) ∧
    (buildEventsResult ws we txns cf rates stocks).expenses.transfers_and_cash =
      ([CATEGORY_TRANSFERS, CATEGORY_CASH].filter
          (fun c => decide (c ∈ (expenseRows (filterTxns ws we cf txns)).map (·.category)))).map
        (fun c => ⟨c, pyInt |catSum (expenseRows (filterTxns ws we cf txns)) c|⟩) ∧
    ∃ keep rest : List (String × ℚ),
      (keep ++ rest).Perm
        ((((expenseRows (filterTxns ws we cf txns)).map (·.category)).dedup.filter
            (fun c => !excludedCat c)).map
          (fun c => (c, catSum (expenseRows (filterTxns ws we cf txns)) c))) ∧
      (mainAndOther (expenseRows (filterTxns ws we cf txns))).1 =
        keep.map (fun p => ⟨p.1, pyInt p.2⟩) ∧
      (mainAndOther (expenseRows (filterTxns ws we cf txns))).2 = (rest.map (·.2)).sum ∧
      (buildEventsResult ws we txns cf rates stocks).expenses.main =
        (mainAndOther (expenseRows (filterTxns ws we cf txns))).1 ++
          (if 0 < (mainAndOther (expenseRows (filterTxns ws we cf txns))).2 then
            [⟨CATEGORY_OTHER, pyInt (mainAndOther (expenseRows (filterTxns ws we cf txns))).2⟩]
          else []) := by
  obtain ⟨keep, rest, h1, h2, h3, _⟩ :=
    mainLoop_spec (byCategory (expenseRows (filterTxns ws we cf txns))) 0 [] 0
  have hmain : (buildEventsResult ws we txns cf rates stocks).expenses.main =
      (mainAndOther (expenseRows (filterTxns ws we cf txns))).1 ++
        (if 0 < (mainAndOther (expenseRows (filterTxns ws we cf txns))).2 then
          [⟨CATEGORY_OTHER, pyInt (mainAndOther (expenseRows (filterTxns ws we cf txns))).2⟩]
        else []) := by
    show (if 0 < (mainAndOther (expenseRows (filterTxns ws we cf txns))).2 then
        (mainAndOther (expenseRows (filterTxns ws we cf txns))).1 ++ [_] else
        (mainAndOther (expenseRows (filterTxns ws we cf txns))).1) = _
    split <;> simp
  refine ⟨?_, ?_, keep, rest, ?_, h2, by simpa using h3, hmain⟩
  · intro e he
    rw [hmain] at he
    rcases List.mem_append.mp he with hk | ho
    · have hk' : e ∈ keep.map (fun p => (⟨p.1, pyInt p.2⟩ : CatAmount)) := by
        have : (mainAndOther (expenseRows (filterTxns ws we cf txns))).1 =
            keep.map (fun p => (⟨p.1, pyInt p.2⟩ : CatAmount)) := by simpa using h2
        rwa [this] at hk
      obtain ⟨p, hp, hpe⟩ := List.mem_map.mp hk'
      have hpf : p ∈ (byCategory (expenseRows (filterTxns ws we cf txns))).filter
          (fun p => !excludedCat p.1) := h1 ▸ List.mem_append_left rest hp
      have hex : excludedCat p.1 = false := by
        have := List.of_mem_filter hpf
        simpa using this
      have hne : p.1 ≠ CATEGORY_TRANSFERS ∧ p.1 ≠ CATEGORY_CASH := by
        unfold excludedCat at hex
        constructor <;> (intro hcontr; rw [hcontr] at hex; simp at hex)
      exact hpe ▸ hne
    · have : e = ⟨CATEGORY_OTHER,
          pyInt (mainAndOther (expenseRows (filterTxns ws we cf txns))).2⟩ := by
        rcases (by split at ho <;> simp_all :
          e = (⟨CATEGORY_OTHER,
            pyInt (mainAndOther (expenseRows (filterTxns ws we cf txns))).2⟩ : CatAmount)) with h
        exact h
      rw [this]
      show CATEGORY_OTHER ≠ CATEGORY_TRANSFERS ∧ CATEGORY_OTHER ≠ CATEGORY_CASH
      exact ⟨by decide, by decide⟩
  · show ([CATEGORY_TRANSFERS, CATEGORY_CASH].filter
        (fun c => decide (c ∈ groupKeys ((expenseRows (filterTxns ws we cf txns)).map
          (·.category))))).map
        (fun c => (⟨c, pyInt |catSum (expenseRows (filterTxns ws we cf txns)) c|⟩ : CatAmount)) = _
    refine congrArg _ (List.filter_congr ?_)
    intro c _
    simp [groupKeys_mem]
  · have hperm : (keep ++ rest).Perm
        ((((expenseRows (filterTxns ws we cf txns)).map (·.category)).dedup.map
          (fun c => (c, catSum (expenseRows (filterTxns ws we cf txns)) c))).filter
            (fun p => !excludedCat p.1)) :=
      h1 ▸ (byCategory_perm (expenseRows (filterTxns ws we cf txns))).filter _
    refine hperm.trans ?_
    rw [List.filter_map]
    exact List.Perm.refl _

/-! ## Top-N / «Остальное» conservation (C2) -/

theorem pyInt_cast_den_one (q : ℚ) (h : q.den = 1) : ((pyInt q : ℤ) : ℚ) = q := by
  have h2 := Rat.num_div_den q
  rw [h] at h2
  unfold pyInt
  simp only [h, Nat.cast_one, Int.tdiv_one]
  simpa using h2

theorem buildExpenses_main_eq (rows : List Txn) :
    (buildExpenses rows).main = (mainAndOther (expenseRows rows)).1 ++
      (if 0 < (mainAndOther (expenseRows rows)).2 then
        [⟨CATEGORY_OTHER, pyInt (mainAndOther (expenseRows rows)).2⟩] else []) := by
  show (if 0 < (mainAndOther (expenseRows rows)).2 then
      (mainAndOther (expenseRows rows)).1 ++ [_] else (mainAndOther (expenseRows rows)).1) = _
  split <;> simp


/-- Conservation of the top-7/«Остальное» bucketing over the non-excluded
category totals, provided no data category is itself named «Остальное» and
every per-category total is integral. -/
theorem buildExpenses_conservation (rows : List Txn)
    (hshadow : CATEGORY_OTHER ∉ (expenseRows rows).map (·.category))
    (hint : ∀ c ∈ (expenseRows rows).map (·.category), (catSum (expenseRows rows) c).den = 1) :
    (((((buildExpenses rows).main.filter (fun e => !(e.category == CATEGORY_OTHER))).map
        (·.amount)).sum : ℤ) : ℚ) +
      (match (buildExpenses rows).main.find? (fun e => e.category == CATEGORY_OTHER) with
        | some e => ((e.amount : ℤ) : ℚ)
        | none => 0) =
    ((((expenseRows rows).map (·.category)).dedup.filter (fun c => !excludedCat c)).map
      (fun c => catSum (expenseRows rows) c)).sum := by
  obtain ⟨keep, rest, h1, h2, h3, _⟩ := mainLoop_spec (byCategory (expenseRows rows)) 0 [] 0
  have h2' : (mainAndOther (expenseRows rows)).1 =
      keep.map (fun p => (⟨p.1, pyInt p.2⟩ : CatAmount)) := by simpa using h2
  have h3' : (mainAndOther (expenseRows rows)).2 =
      (rest.map (fun p : String × ℚ => p.2)).sum := by simpa using h3
  have hperm : (keep ++ rest).Perm
      ((((expenseRows rows).map (·.category)).dedup.filter (fun c => !excludedCat c)).map
        (fun c => (c, catSum (expenseRows rows) c))) := by
    have hstep : (keep ++ rest).Perm
        (((((expenseRows rows).map (·.category)).dedup.map
          (fun c => (c, catSum (expenseRows rows) c))).filter
            (fun p : String × ℚ => !excludedCat p.1))) :=
      h1 ▸ (byCategory_perm (expenseRows rows)).filter (fun p : String × ℚ => !excludedCat p.1)
    refine hstep.trans ?_
    rw [List.filter_map]
    exact List.Perm.refl _
  have hform : ∀ p ∈ keep ++ rest,
      ∃ c, c ∈ (expenseRows rows).map (·.category) ∧ p = (c, catSum (expenseRows rows) c) := by
    intro p hp
    have hpm := hperm.mem_iff.mp hp
    obtain ⟨c, hc, hcp⟩ := List.mem_map.mp hpm
    exact ⟨c, List.mem_dedup.mp (List.mem_of_mem_filter hc), hcp.symm⟩
  have hden : ∀ p ∈ keep ++ rest, p.2.den = 1 := by
    intro p hp
    obtain ⟨c, hc, hcp⟩ := hform p hp
    rw [hcp]
    exact hint c hc
  have hnother : ∀ p ∈ keep ++ rest, p.1 ≠ CATEGORY_OTHER := by
    intro p hp
    obtain ⟨c, hc, hcp⟩ := hform p hp
    rw [hcp]
    exact fun h => hshadow (h ▸ hc)
  have hnonneg : ∀ p ∈ keep ++ rest, (0:ℚ) ≤ p.2 := by
    intro p hp
    obtain ⟨c, _, hcp⟩ := hform p hp
    rw [hcp]
    exact abs_nonneg _
  have hkeepfilter : (keep.map (fun p => (⟨p.1, pyInt p.2⟩ : CatAmount))).filter
      (fun e => !(e.category == CATEGORY_OTHER)) =
      keep.map (fun p => (⟨p.1, pyInt p.2⟩ : CatAmount)) := by
    rw [List.filter_eq_self]
    intro e he
    obtain ⟨p, hp, hpe⟩ := List.mem_map.mp he
    have := hnother p (List.mem_append_left rest hp)
    rw [← hpe]
    simpa using this
  have hkeepfind : (keep.map (fun p => (⟨p.1, pyInt p.2⟩ : CatAmount))).find?
      (fun e => e.category == CATEGORY_OTHER) = none := by
    rw [List.find?_eq_none]
    intro e he
    obtain ⟨p, hp, hpe⟩ := List.mem_map.mp he
    have := hnother p (List.mem_append_left rest hp)
    rw [← hpe]
    simpa using this
  have hkeepamounts : ((keep.map (fun p => (⟨p.1, pyInt p.2⟩ : CatAmount))).map (·.amount)) =
      keep.map (fun p => pyInt p.2) := by
    rw [List.map_map]
    rfl
  have hkeepsum : (((keep.map (fun p => pyInt p.2)).sum : ℤ) : ℚ) =
      (keep.map (fun p : String × ℚ => p.2)).sum := by
    rw [Int.cast_list_sum, List.map_map]
    refine congrArg List.sum (List.map_congr_left ?_)
    intro p hp
    exact pyInt_cast_den_one p.2 (hden p (List.mem_append_left rest hp))
  have hrestsum : (((rest.map (fun p => pyInt p.2)).sum : ℤ) : ℚ) =
      (rest.map (fun p : String × ℚ => p.2)).sum := by
    rw [Int.cast_list_sum, List.map_map]
    refine congrArg List.sum (List.map_congr_left ?_)
    intro p hp
    exact pyInt_cast_den_one p.2 (hden p (List.mem_append_right keep hp))
  have hrestden : ((rest.map (fun p : String × ℚ => p.2)).sum).den = 1 := by
    rw [← hrestsum]
    exact Rat.den_intCast _
  have htarget : ((((expenseRows rows).map (·.category)).dedup.filter
        (fun c => !excludedCat c)).map (fun c => catSum (expenseRows rows) c)).sum =
      (keep.map (fun p : String × ℚ => p.2)).sum +
        (rest.map (fun p : String × ℚ => p.2)).sum := by
    have hsum := (hperm.map (fun p : String × ℚ => p.2)).sum_eq
    rw [List.map_append, List.sum_append] at hsum
    have hmm : (((((expenseRows rows).map (·.category)).dedup.filter
          (fun c => !excludedCat c)).map (fun c => (c, catSum (expenseRows rows) c))).map
            (fun p : String × ℚ => p.2)) =
        (((expenseRows rows).map (·.category)).dedup.filter (fun c => !excludedCat c)).map
          (fun c => catSum (expenseRows rows) c) := by
      rw [List.map_map]
      rfl
    rw [hmm] at hsum
    exact hsum.symm
  rw [buildExpenses_main_eq rows, h2', htarget]
  by_cases hpos : 0 < (mainAndOther (expenseRows rows)).2
  · rw [if_pos hpos, List.filter_append, List.find?_append, hkeepfilter, hkeepfind]
    have hofilter : (([(⟨CATEGORY_OTHER, pyInt (mainAndOther (expenseRows rows)).2⟩ :
        CatAmount)]).filter (fun e => !(e.category == CATEGORY_OTHER))) = [] := by
      simp
    have hofind : (([(⟨CATEGORY_OTHER, pyInt (mainAndOther (expenseRows rows)).2⟩ :
        CatAmount)]).find? (fun e => e.category == CATEGORY_OTHER)) =
        some ⟨CATEGORY_OTHER, pyInt (mainAndOther (expenseRows rows)).2⟩ := by
      simp
    rw [hofilter, hofind, List.append_nil, hkeepamounts]
    show (((keep.map (fun p => pyInt p.2)).sum : ℤ) : ℚ) +
        ((pyInt (mainAndOther (expenseRows rows)).2 : ℤ) : ℚ) = _
    rw [hkeepsum, pyInt_cast_den_one _ (h3' ▸ hrestden), h3']
  · rw [if_neg hpos, List.append_nil, hkeepfilter, hkeepfind, hkeepamounts]
    have hrestzero : ((rest.map (fun p : String × ℚ => p.2)).sum : ℚ) = 0 := by
      have hle : ((rest.map (fun p : String × ℚ => p.2)).sum : ℚ) ≤ 0 :=
        h3' ▸ le_of_not_lt hpos
      have hge : (0:ℚ) ≤ (rest.map (fun p : String × ℚ => p.2)).sum := by
        refine List.sum_nonneg ?_
        intro x hx
        obtain ⟨p, hp, hpx⟩ := List.mem_map.mp hx
        exact hpx ▸ hnonneg p (List.mem_append_right keep hp)
      linarith
    show (((keep.map (fun p => pyInt p.2)).sum : ℤ) : ℚ) + 0 = _
    rw [hkeepsum, hrestzero]

/-- **C2 (amended)** For every dataset and resolved window, provided no
data category is itself named «Остальное» and every per-category expense
total is an integer, the sum of the `expenses.main` amounts outside
«Остальное» plus the «Остальное» amount (0 when absent) equals the total
expense amount over all non-excluded categories (the category total
excluding «Переводы»/«Наличные», not the grand total). Without the
integrality proviso the truncating casts make the books differ (see the
counterexample). -/
theorem events_main_conservation (ws we : DateTime) (txns : List Txn)
    (cf : Option String) (rates stocks : List String)
    (hshadow : CATEGORY_OTHER ∉ (expenseRows (filterTxns ws we cf txns)).map (·.category))
    (hint : ∀ c ∈ (expenseRows (filterTxns ws we cf txns)).map (·.category),
      (catSum (expenseRows (filterTxns ws we cf txns)) c).den = 1) :
    (((((buildEventsResult ws we txns cf rates stocks).expenses.main.filter
        (fun e => !(e.category == CATEGORY_OTHER))).map (·.amount)).sum : ℤ) : ℚ) +
      (match (buildEventsResult ws we txns cf rates stocks).expenses.main.find?
          (fun e => e.category == CATEGORY_OTHER) with
        | some e => ((e.amount : ℤ) : ℚ)
        | none => 0) =
    ((((expenseRows (filterTxns ws we cf txns)).map (·.category)).dedup.filter
        (fun c => !excludedCat c)).map
      (fun c => catSum (expenseRows (filterTxns ws we cf txns)) c)).sum :=
  buildExpenses_conservation (filterTxns ws we cf txns) hshadow hint

/-- Witness for `events_main_conservation` on a one-row integral dataset. -/
theorem events_main_conservation_witness :
    (((((buildEventsResult ⟨2024, 3, 1, 0, 0, 0⟩ ⟨2024, 3, 31, 23, 59, 59⟩
          [⟨⟨2024, 3, 10, 12, 0, 0⟩, "*1", "OK", "Еда", "d", -100⟩] none [] []).expenses.main.filter
        (fun e => !(e.category == CATEGORY_OTHER))).map (·.amount)).sum : ℤ) : ℚ) +
      (match (buildEventsResult ⟨2024, 3, 1, 0, 0, 0⟩ ⟨2024, 3, 31, 23, 59, 59⟩
          [⟨⟨2024, 3, 10, 12, 0, 0⟩, "*1", "OK", "Еда", "d", -100⟩] none [] []).expenses.main.find?
          (fun e => e.category == CATEGORY_OTHER) with
        | some e => ((e.amount : ℤ) : ℚ)
        | none => 0) =
    ((((expenseRows (filterTxns ⟨2024, 3, 1, 0, 0, 0⟩ ⟨2024, 3, 31, 23, 59, 59⟩ none
          [⟨⟨2024, 3, 10, 12, 0, 0⟩, "*1", "OK", "Еда", "d", -100⟩])).map (·.category)).dedup.filter
        (fun c => !excludedCat c)).map
      (fun c => catSum (expenseRows (filterTxns ⟨2024, 3, 1, 0, 0, 0⟩
          ⟨2024, 3, 31, 23, 59, 59⟩ none
          [⟨⟨2024, 3, 10, 12, 0, 0⟩, "*1", "OK", "Еда", "d", -100⟩])) c)).sum :=
  events_main_conservation ⟨2024, 3, 1, 0, 0, 0⟩ ⟨2024, 3, 31, 23, 59, 59⟩
    [⟨⟨2024, 3, 10, 12, 0, 0⟩, "*1", "OK", "Еда", "d", -100⟩] none [] []
    (by with_unfolding_all decide) (by with_unfolding_all decide)

/-- **C2 counterexample** Two categories of `-10.5` each: the main entries
hold the truncations `10 + 10 = 20`, there is no «Остальное» entry, yet the
exact total over the non-excluded categories is `21` (and so is its
truncating cast), so the claimed conservation fails as stated. -/
theorem events_main_conservation_counterexample :
    (((((buildEventsResult ⟨2024, 3, 1, 0, 0, 0⟩ ⟨2024, 3, 31, 23, 59, 59⟩
          [⟨⟨2024, 3, 10, 12, 0, 0⟩, "*1", "OK", "Кафе", "a", -(21/2)⟩,
           ⟨⟨2024, 3, 11, 12, 0, 0⟩, "*1", "OK", "Аптека", "b", -(21/2)⟩]
          none [] []).expenses.main.filter
        (fun e => !(e.category == CATEGORY_OTHER))).map (·.amount)).sum : ℤ) : ℚ) +
      (match (buildEventsResult ⟨2024, 3, 1, 0, 0, 0⟩ ⟨2024, 3, 31, 23, 59, 59⟩
          [⟨⟨2024, 3, 10, 12, 0, 0⟩, "*1", "OK", "Кафе", "a", -(21/2)⟩,
           ⟨⟨2024, 3, 11, 12, 0, 0⟩, "*1", "OK", "Аптека", "b", -(21/2)⟩]
          none [] []).expenses.main.find?
          (fun e => e.category == CATEGORY_OTHER) with
        | some e => ((e.amount : ℤ) : ℚ)
        | none => 0) = 20 ∧
    ((((expenseRows (filterTxns ⟨2024, 3, 1, 0, 0, 0⟩ ⟨2024, 3, 31, 23, 59, 59⟩ none
          [⟨⟨2024, 3, 10, 12, 0, 0⟩, "*1", "OK", "Кафе", "a", -(21/2)⟩,
           ⟨⟨2024, 3, 11, 12, 0, 0⟩, "*1", "OK", "Аптека", "b", -(21/2)⟩])).map
        (·.category)).dedup.filter (fun c => !excludedCat c)).map
      (fun c => catSum (expenseRows (filterTxns ⟨2024, 3, 1, 0, 0, 0⟩
          ⟨2024, 3, 31, 23, 59, 59⟩ none
          [⟨⟨2024, 3, 10, 12, 0, 0⟩, "*1", "OK", "Кафе", "a", -(21/2)⟩,
           ⟨⟨2024, 3, 11, 12, 0, 0⟩, "*1", "OK", "Аптека", "b", -(21/2)⟩])) c)).sum = 21 ∧
    pyInt 21 = 21 ∧ (20 : ℚ) ≠ 21 :=
  ⟨by with_unfolding_all rfl, by with_unfolding_all rfl, by with_unfolding_all rfl,
    by norm_num⟩

/-! ## String order facts and the stable card sort (C4) -/

theorem lexLe_total (a b : List Nat) : lexLe a b = true ∨ lexLe b a = true := by
  induction a generalizing b with
  | nil => left; rfl
  | cons x xs ih =>
    cases b with
    | nil => right; rfl
    | cons y ys =>
      by_cases h1 : x < y
      · left; simp [lexLe, h1]
      · by_cases h2 : y < x
        · right; simp [lexLe, h2]
        · have hxy : x = y := by omega
          subst hxy
          rcases ih ys with h | h
          · left; simpa [lexLe] using h
          · right; simpa [lexLe] using h

theorem lexLe_trans (a b c : List Nat) (h1 : lexLe a b = true) (h2 : lexLe b c = true) :
    lexLe a c = true := by
  induction a generalizing b c with
  | nil => rfl
  | cons x xs ih =>
    cases b with
    | nil => simp [lexLe] at h1
    | cons y ys =>
      cases c with
      | nil => simp [lexLe] at h2
      | cons z zs =>
        rcases Nat.lt_trichotomy x y with hxy | hxy | hxy
        · rcases Nat.lt_trichotomy y z with hyz | hyz | hyz
          · simp [lexLe, show x < z by omega]
          · subst hyz; simp [lexLe, hxy]
          · simp [lexLe, hyz, show ¬ y < z by omega] at h2
        · subst hxy
          rcases Nat.lt_trichotomy x z with hyz | hyz | hyz
          · simp [lexLe, hyz]
          · subst hyz
            simp only [lexLe, lt_irrefl, if_false] at h1 h2 ⊢
            exact ih ys zs h1 h2
          · simp [lexLe, hyz, show ¬ x < z by omega] at h2
        · simp [lexLe, hxy, show ¬ x < y by omega] at h1

theorem strLeP_total (a b : String) : strLeP a b ∨ strLeP b a := lexLe_total _ _

theorem strLeP_trans (a b c : String) (h1 : strLeP a b) (h2 : strLeP b c) : strLeP a c :=
  lexLe_trans _ _ _ h1 h2

theorem insertPairBySpent_map_snd (x : String × CardEntry) (l : List (String × CardEntry)) :
    (insertPairBySpent x l).map Prod.snd = insertBySpent x.2 (l.map Prod.snd) := by
  induction l with
  | nil => rfl
  | cons y ys ih =>
    by_cases h : y.2.total_spent < x.2.total_spent
    · simp [insertPairBySpent, insertBySpent, h]
    · simp [insertPairBySpent, insertBySpent, h, ih]

theorem sortPairsBySpent_map_snd (l : List (String × CardEntry)) :
    (sortPairsBySpent l).map Prod.snd = sortBySpent (l.map Prod.snd) := by
  suffices h : ∀ (l acc : List (String × CardEntry)),
      (l.foldl (fun a x => insertPairBySpent x a) acc).map Prod.snd =
        (l.map Prod.snd).foldl (fun a x => insertBySpent x a) (acc.map Prod.snd) by
    exact h l []
  intro l
  induction l with
  | nil => intro acc; rfl
  | cons x xs ih =>
    intro acc
    simp only [List.foldl_cons, List.map_cons]
    rw [ih, insertPairBySpent_map_snd]

theorem insertPairBySpent_perm (x : String × CardEntry) (l : List (String × CardEntry)) :
    (insertPairBySpent x l).Perm (x :: l) := by
  induction l with
  | nil => exact List.Perm.refl _
  | cons y ys ih =>
    by_cases h : y.2.total_spent < x.2.total_spent
    · simp only [insertPairBySpent, h, if_true]
      exact List.Perm.refl _
    · simp only [insertPairBySpent, h, if_false]
      exact (ih.cons y).trans (List.Perm.swap x y ys)

theorem sortPairsBySpent_perm (l : List (String × CardEntry)) : (sortPairsBySpent l).Perm l := by
  suffices h : ∀ (l acc : List (String × CardEntry)),
      (l.foldl (fun a x => insertPairBySpent x a) acc).Perm (acc ++ l) by
    simpa using h l []
  intro l
  induction l with
  | nil => intro acc; simp
  | cons x xs ih =>
    intro acc
    simp only [List.foldl_cons]
    refine (ih (insertPairBySpent x acc)).trans ?_
    refine ((insertPairBySpent_perm x acc).append_right xs).trans ?_
    exact List.perm_middle.symm

theorem insertPairBySpent_pairwise (x : String × CardEntry) (acc : List (String × CardEntry))
    (hacc : acc.Pairwise cardOrder) (hkey : ∀ y ∈ acc, strLtP y.1 x.1) :
    (insertPairBySpent x acc).Pairwise cardOrder := by
  induction acc with
  | nil => simp [insertPairBySpent]
  | cons y ys ih =>
    rcases List.pairwise_cons.mp hacc with ⟨hy, hys⟩
    by_cases h : y.2.total_spent < x.2.total_spent
    · simp only [insertPairBySpent, h, if_true]
      refine List.Pairwise.cons ?_ hacc
      intro z hz
      rcases List.mem_cons.mp hz with rfl | hzys
      · exact ⟨le_of_lt h, fun heq => absurd h (by rw [heq]; exact lt_irrefl _)⟩
      · have hzy := hy z hzys
        exact ⟨le_trans hzy.1 (le_of_lt h), fun heq => absurd h (by
          have := lt_of_le_of_lt hzy.1 h
          rw [heq] at this
          exact absurd this (lt_irrefl _))⟩
    · simp only [insertPairBySpent, h, if_false]
      refine List.Pairwise.cons ?_
        (ih hys (fun z hz => hkey z (List.mem_cons_of_mem y hz)))
      intro z hz
      rcases List.mem_cons.mp ((insertPairBySpent_perm x ys).mem_iff.mp hz) with rfl | hzys
      · exact ⟨le_of_not_lt h, fun _ => hkey y (List.mem_cons_self y ys)⟩
      · exact hy z hzys

theorem sortPairsBySpent_pairwise (l : List (String × CardEntry))
    (hl : l.Pairwise (fun a b => strLtP a.1 b.1)) :
    (sortPairsBySpent l).Pairwise cardOrder := by
  suffices h : ∀ (l acc : List (String × CardEntry)), acc.Pairwise cardOrder →
      (∀ y ∈ acc, ∀ x ∈ l, strLtP y.1 x.1) → l.Pairwise (fun a b => strLtP a.1 b.1) →
      (l.foldl (fun a x => insertPairBySpent x a) acc).Pairwise cardOrder by
    exact h l [] (by simp) (by simp) hl
  intro l
  induction l with
  | nil =>
    intro acc h1 _ _
    exact h1
  | cons x xs ih =>
    intro acc h1 h2 h3
    rcases List.pairwise_cons.mp h3 with ⟨hx, hxs⟩
    simp only [List.foldl_cons]
    refine ih (insertPairBySpent x acc)
      (insertPairBySpent_pairwise x acc h1 (fun y hy => h2 y hy x (List.mem_cons_self x xs)))
      ?_ hxs
    intro y hy z hz
    rcases List.mem_cons.mp ((insertPairBySpent_perm x acc).mem_iff.mp hy) with rfl | hyacc
    · exact hx z hz
    · exact h2 y hyacc z (List.mem_cons_of_mem x hz)

theorem groupKeys_pairwise (vals : List String) :
    (groupKeys vals).Pairwise strLtP := by
  haveI : IsTotal String strLeP := ⟨strLeP_total⟩
  haveI : IsTrans String strLeP := ⟨strLeP_trans⟩
  have hsorted : (groupKeys vals).Pairwise strLeP :=
    List.sorted_insertionSort strLeP vals.dedup
  have hnodup : (groupKeys vals).Nodup :=
    (List.perm_insertionSort strLeP vals.dedup).symm.nodup (List.nodup_dedup vals)
  exact hsorted.and hnodup

/-- **C4 (amended)** For every dataset, the `home_page` cards list is the
snd-projection of an id-annotated list that (i) holds exactly one entry
per card id occurring among the *filtered rows* (status OK, inside the
window — a card with only income rows still gets an entry, with
`total_spent = 0`), (ii) is ordered descending by `total_spent` with ties
keeping the ascending natural order of the card ids, and (iii) carries for
each card `total_spent = round2 |sum of that card's expense amounts|` and
`cashback = round2 (total_spent_raw × 0.01)`. -/
theorem home_cards_spec (dt : String) (txns : List Txn) (rates stocks : List String)
    (cur : DateTime) (hp : parseDateTime dt = some cur) (hne : txns ≠ []) :
    ∃ l : List (String × CardEntry),
      (home_page dt txns rates stocks).cards = l.map Prod.snd ∧
      l.Perm ((groupKeys ((txns.filter (keepRow (get_month_start cur) (endOfDay cur))).map
          (·.cardId))).map
        (fun c => (c, cardEntry (txns.filter (keepRow (get_month_start cur) (endOfDay cur))) c))) ∧
      l.Pairwise cardOrder ∧
      (∀ c, c ∈ groupKeys ((txns.filter (keepRow (get_month_start cur) (endOfDay cur))).map
          (·.cardId)) ↔
        c ∈ (txns.filter (keepRow (get_month_start cur) (endOfDay cur))).map (·.cardId)) ∧
      (∀ c, cardEntry (txns.filter (keepRow (get_month_start cur) (endOfDay cur))) c =
        ⟨lastDigits c,
          round2 |((((txns.filter (keepRow (get_month_start cur) (endOfDay cur))).filter
              (fun t => t.cardId == c)).filter (fun t => decide (t.amount < 0))).map
            (·.amount)).sum|,
          round2 (|((((txns.filter (keepRow (get_month_start cur) (endOfDay cur))).filter
              (fun t => t.cardId == c)).filter (fun t => decide (t.amount < 0))).map
            (·.amount)).sum| * CASHBACK_RATE)⟩) := by
  refine ⟨sortPairsBySpent
    ((groupKeys ((txns.filter (keepRow (get_month_start cur) (endOfDay cur))).map
        (·.cardId))).map
      (fun c => (c, cardEntry (txns.filter (keepRow (get_month_start cur) (endOfDay cur))) c))),
    ?_, sortPairsBySpent_perm _, ?_, fun c => groupKeys_mem _ c, fun c => rfl⟩
  · have hcards : (home_page dt txns rates stocks).cards =
        cardsData (txns.filter (keepRow (get_month_start cur) (endOfDay cur))) := by
      unfold home_page
      rw [hp]
      simp [hne]
    rw [hcards, sortPairsBySpent_map_snd, List.map_map]
    rfl
  · refine sortPairsBySpent_pairwise _ ?_
    exact List.pairwise_map.mpr ((groupKeys_pairwise _).imp (fun h => h))

/-- Witness for `home_cards_spec` on a one-row dataset. -/
theorem home_cards_spec_witness :
    ∃ l : List (String × CardEntry),
      (home_page "2024-03-15 12:00:00"
          [⟨⟨2024, 3, 10, 12, 0, 0⟩, "*7197", "OK", "Еда", "d", -100⟩] [] []).cards =
        l.map Prod.snd ∧
      l.Perm ((groupKeys (([⟨⟨2024, 3, 10, 12, 0, 0⟩, "*7197", "OK", "Еда", "d", -100⟩].filter
          (keepRow (get_month_start ⟨2024, 3, 15, 12, 0, 0⟩)
            (endOfDay ⟨2024, 3, 15, 12, 0, 0⟩))).map (·.cardId))).map
        (fun c => (c, cardEntry ([⟨⟨2024, 3, 10, 12, 0, 0⟩, "*7197", "OK", "Еда", "d", -100⟩].filter
          (keepRow (get_month_start ⟨2024, 3, 15, 12, 0, 0⟩)
            (endOfDay ⟨2024, 3, 15, 12, 0, 0⟩))) c))) ∧
      l.Pairwise cardOrder ∧
      (∀ c, c ∈ groupKeys (([⟨⟨2024, 3, 10, 12, 0, 0⟩, "*7197", "OK", "Еда", "d", -100⟩].filter
          (keepRow (get_month_start ⟨2024, 3, 15, 12, 0, 0⟩)
            (endOfDay ⟨2024, 3, 15, 12, 0, 0⟩))).map (·.cardId)) ↔
        c ∈ ([⟨⟨2024, 3, 10, 12, 0, 0⟩, "*7197", "OK", "Еда", "d", -100⟩].filter
          (keepRow (get_month_start ⟨2024, 3, 15, 12, 0, 0⟩)
            (endOfDay ⟨2024, 3, 15, 12, 0, 0⟩))).map (·.cardId)) ∧
      (∀ c, cardEntry ([⟨⟨2024, 3, 10, 12, 0, 0⟩, "*7197", "OK", "Еда", "d", -100⟩].filter
          (keepRow (get_month_start ⟨2024, 3, 15, 12, 0, 0⟩)
            (endOfDay ⟨2024, 3, 15, 12, 0, 0⟩))) c =
        ⟨lastDigits c,
          round2 |(((([⟨⟨2024, 3, 10, 12, 0, 0⟩, "*7197", "OK", "Еда", "d", -100⟩].filter
              (keepRow (get_month_start ⟨2024, 3, 15, 12, 0, 0⟩)
                (endOfDay ⟨2024, 3, 15, 12, 0, 0⟩))).filter
              (fun t => t.cardId == c)).filter (fun t => decide (t.amount < 0))).map
            (·.amount)).sum|,
          round2 (|(((([⟨⟨2024, 3, 10, 12, 0, 0⟩, "*7197", "OK", "Еда", "d", -100⟩].filter
              (keepRow (get_month_start ⟨2024, 3, 15, 12, 0, 0⟩)
                (endOfDay ⟨2024, 3, 15, 12, 0, 0⟩))).filter
              (fun t => t.cardId == c)).filter (fun t => decide (t.amount < 0))).map
            (·.amount)).sum| * CASHBACK_RATE)⟩) :=
  home_cards_spec "2024-03-15 12:00:00"
    [⟨⟨2024, 3, 10, 12, 0, 0⟩, "*7197", "OK", "Еда", "d", -100⟩] [] []
    ⟨2024, 3, 15, 12, 0, 0⟩ (by with_unfolding_all rfl) (List.cons_ne_nil _ _)

/-- **C4 counterexample** A dataset holding a single *income* row: its card
id occurs among no filtered expense row, yet the cards list still carries
an entry for it (with `total_spent = 0`), so the claim's «exactly one
entry per card_id occurring among the filtered expense rows» fails. -/
theorem home_cards_counterexample :
    (home_page "2024-03-15 12:00:00"
        [⟨⟨2024, 3, 10, 12, 0, 0⟩, "1234567890123456", "OK", "Зарплата", "d", 100⟩] [] []).cards =
      [⟨"3456", 0, 0⟩] ∧
    (([⟨⟨2024, 3, 10, 12, 0, 0⟩, "1234567890123456", "OK", "Зарплата", "d", 100⟩].filter
        (keepRow (get_month_start ⟨2024, 3, 15, 12, 0, 0⟩)
          (endOfDay ⟨2024, 3, 15, 12, 0, 0⟩))).filter
      (fun t => decide (t.amount < 0))).map (·.cardId) = [] :=
  ⟨by with_unfolding_all rfl, by with_unfolding_all rfl⟩
